import Mathlib

/-!
Shallow embedding of the Cool Muscle steering actuator controller declared in
include/SteeringController.h, and proofs of the specification's claims.

Modelling conventions: real-valued quantities (C++ double) are exact
rationals ℚ; the 64-bit pulse counter (C++ long long) is ℤ.  The header
gives the class declaration, the numeric constants and the inline templated
writeline overload; member-function bodies that are absent from the header
are modelled from the spec, and each such definition says so in its doc
comment.
-/

namespace ComsSteering

/-- Pulse count: the actuator's native signed position unit (C++ `long long int`). -/
abbrev pulse_t := ℤ

/-- From the header: per-attempt serial read/write timeout in milliseconds. -/
def READ_WRITE_TIMEOUT_MS : ℕ := 250

/-- From the header: default speed for Cool Muscle (pulse/s). -/
def DEFAULT_S : ℤ := 40

/-- From the header: default acceleration for Cool Muscle (pulse/s^2). -/
def DEFAULT_A : ℤ := 50

/-- From the header: default torque for Cool Muscle. -/
def DEFAULT_M : ℤ := 20

/-- The serial transport handle (the external `serial::Serial` collaborator),
abstracted to the configuration it carries for the controller. -/
structure SerialHandle where
  port : String
  baudrate : ℕ
  isOpen : Bool
deriving DecidableEq

/-- The controller state, mirroring exactly the private members of class
`SteeringController` in the header: the serial handle, the CCW limit pair
(radians, pulse counts), the CW limit pair, and the origin offset. -/
structure SteeringController where
  to_cool_muscle : SerialHandle
  limit_plus_ccw : ℚ × pulse_t
  limit_minus_cw : ℚ × pulse_t
  origin_offset : pulse_t
deriving DecidableEq

/-- Modelled from the spec: the Connection/Power state of section 3 of the
spec.  The header's class records no such field; operations modelled below
take it as an input from the environment. -/
inductive ConnState where
  | Disconnected
  | Connected
  | Initialized
  | Enabled
  | Disabled
deriving DecidableEq

/-- The error taxonomy of the spec (section 7). -/
inductive CtrlError where
  | ConnectionError
  | ProtocolTimeoutError
  | LimitExceededError
  | PreconditionError
deriving DecidableEq

/-- A move command as issued to the actuator: target pulse count, speed,
acceleration and torque in actuator-native units. -/
structure MoveCmd where
  pulse : pulse_t
  speed : ℤ
  acc : ℤ
  torque : ℤ
deriving DecidableEq

/-- Modelled from the spec (the body of `pulse2rad` is not in the header):
direction is chosen by the sign of `pulse - origin_offset`, the matching
limit pair is selected, and `rad = (pulse - origin_offset) / pulse_limit *
angle_limit`. -/
def pulse2rad (c : SteeringController) (pulse : pulse_t) : ℚ :=
  if 0 ≤ pulse - c.origin_offset then
    ((pulse - c.origin_offset : ℤ) : ℚ) / (c.limit_plus_ccw.2 : ℚ) * c.limit_plus_ccw.1
  else
    ((pulse - c.origin_offset : ℤ) : ℚ) / (c.limit_minus_cw.2 : ℚ) * c.limit_minus_cw.1

/-- Modelled from the spec (the body of `rad2pulse` is not in the header):
the limit pair is selected by the sign of `rad`, the angle is scaled to
pulses, the origin offset is added, and the result is rounded to the
nearest integer pulse count. -/
def rad2pulse (c : SteeringController) (rad : ℚ) : pulse_t :=
  if 0 ≤ rad then
    round (rad / c.limit_plus_ccw.1 * (c.limit_plus_ccw.2 : ℚ) + (c.origin_offset : ℚ))
  else
    round (rad / c.limit_minus_cw.1 * (c.limit_minus_cw.2 : ℚ) + (c.origin_offset : ℚ))

/-- From the header (inline source): base framer, appends CRLF to the line.
The write itself is the external transport capability; the value returned
here is the exact byte string handed to it. -/
def writeline (line : String) : String :=
  line ++ "\r\n"

/-- From the header (inline source): the templated overload
`writeline(line, val)` delegates to the base `writeline` on the
concatenation of `line` with the decimal text of `val`, with no separator. -/
def writeline2 (line : String) (val : pulse_t) : String :=
  writeline (line ++ toString val)

/-- Modelled from the spec (the body of `readline` is not in the header):
the transport is a finite trace of received lines, each tagged with the
milliseconds the blocking read waited for it; after the trace the line is
silent.  Each read attempt blocks until its line arrives or
`READ_WRITE_TIMEOUT_MS` elapses; a line is scanned with `parse` and
discarded when it does not match.  Returns the result together with the
total elapsed milliseconds. -/
def readline {T : Type} (parse : String → Option T) :
    List (ℕ × String) → Except CtrlError T × ℕ
  | [] => (Except.error CtrlError.ProtocolTimeoutError, READ_WRITE_TIMEOUT_MS)
  | (d, l) :: rest =>
    if READ_WRITE_TIMEOUT_MS < d then
      (Except.error CtrlError.ProtocolTimeoutError, READ_WRITE_TIMEOUT_MS)
    else
      match parse l with
      | some v => (Except.ok v, d)
      | none =>
        let r := readline parse rest
        (r.1, d + r.2)

/-- Modelled from the spec: conversion of an angular velocity or
acceleration magnitude to actuator-native units by the CCW pulses-per-radian
scale.  The exact firmware scale factor is out of the spec's scope; no claim
below depends on its value. -/
def angvel2pulse (c : SteeringController) (w : ℚ) : ℤ :=
  round (|w| / c.limit_plus_ccw.1 * (c.limit_plus_ccw.2 : ℚ))

/-- Modelled from the spec: common core of the `set` overloads.  Requires the
Enabled state (fails fast with `PreconditionError`), validates the angle
against the CW/CCW limits (fails with `LimitExceededError`, issuing
nothing), and otherwise issues the single move command combining the target
pulse count with the given speed and acceleration and the default torque. -/
def setCmd (c : SteeringController) (st : ConnState) (ang : ℚ)
    (speed acc : ℤ) : Except CtrlError MoveCmd :=
  if st = ConnState.Enabled then
    if c.limit_plus_ccw.1 < ang ∨ ang < c.limit_minus_cw.1 then
      Except.error CtrlError.LimitExceededError
    else
      Except.ok ⟨rad2pulse c ang, speed, acc, DEFAULT_M⟩
  else
    Except.error CtrlError.PreconditionError

/-- Modelled from the spec: the three-argument `set` overload, converting the
velocity and acceleration magnitudes to actuator units. -/
def set (c : SteeringController) (st : ConnState)
    (ang ang_vel ang_acc : ℚ) : Except CtrlError MoveCmd :=
  setCmd c st ang (angvel2pulse c ang_vel) (angvel2pulse c ang_acc)

/-- Modelled from the spec: the two-argument `set` overload, substituting the
default acceleration. -/
def set2 (c : SteeringController) (st : ConnState)
    (ang ang_vel : ℚ) : Except CtrlError MoveCmd :=
  setCmd c st ang (angvel2pulse c ang_vel) DEFAULT_A

/-- Modelled from the spec: the one-argument `set` overload, substituting the
default speed and acceleration. -/
def set1 (c : SteeringController) (st : ConnState) (ang : ℚ) :
    Except CtrlError MoveCmd :=
  setCmd c st ang DEFAULT_S DEFAULT_A

/-- The actuator's last successfully issued motion command after a `set`
call: a successful call replaces it, a failed call leaves it in effect. -/
def lastCmdAfter (last : Option MoveCmd) (res : Except CtrlError MoveCmd) :
    Option MoveCmd :=
  match res with
  | Except.ok cmd => some cmd
  | Except.error _ => last

/-- Modelled from the spec: `get_pulse_count` issues the position query and
reads the count back through `readline`; requires the Enabled state.  The
firmware scan format is abstracted by `parse`. -/
def get_pulse_count (c : SteeringController) (st : ConnState)
    (parse : String → Option pulse_t) (trace : List (ℕ × String)) :
    Except CtrlError pulse_t :=
  if st = ConnState.Enabled then (readline parse trace).1
  else Except.error CtrlError.PreconditionError

/-- Modelled from the spec: `get_rad` is `get_pulse_count` followed by
`pulse2rad`. -/
def get_rad (c : SteeringController) (st : ConnState)
    (parse : String → Option pulse_t) (trace : List (ℕ × String)) :
    Except CtrlError ℚ :=
  (get_pulse_count c st parse trace).map (pulse2rad c)

/-- The protocol commands without numeric payload sent by the lifecycle and
emergency operations; the exact firmware vocabulary is out of the spec's
scope. -/
inductive WireCmd where
  | enable
  | disable
  | stop
  | stopRelease
deriving DecidableEq

/-- Modelled from the spec: `set_port` mutates the configured port of the
transport handle and nothing else. -/
def set_port (c : SteeringController) (port : String) : SteeringController :=
  { c with to_cool_muscle := { c.to_cool_muscle with port := port } }

/-- Modelled from the spec: `set_baudrate` mutates the configured baud rate
of the transport handle and nothing else. -/
def set_baudrate (c : SteeringController) (baudrate : ℕ) : SteeringController :=
  { c with to_cool_muscle := { c.to_cool_muscle with baudrate := baudrate } }

/-- Modelled from the spec: `connect` opens the transport at the configured
port, or fails with `ConnectionError` when the port is unavailable (the
availability is an environment input). -/
def connect (portAvailable : Bool) (c : SteeringController) :
    Except CtrlError SteeringController :=
  if portAvailable then
    Except.ok { c with to_cool_muscle := { c.to_cool_muscle with isOpen := true } }
  else
    Except.error CtrlError.ConnectionError

/-- Modelled from the spec: `init` sends the homing command and waits for an
acknowledgement (an environment input); it fails with a timeout error when
none arrives, and touches no configuration either way. -/
def init (ackReceived : Bool) (c : SteeringController) :
    Except CtrlError SteeringController :=
  if ackReceived then Except.ok c else Except.error CtrlError.ProtocolTimeoutError

/-- Modelled from the spec: `on` sends the servo-enable command; the
controller state is unchanged. -/
def «on» (c : SteeringController) : SteeringController × WireCmd :=
  (c, WireCmd.enable)

/-- Modelled from the spec: `off` sends the servo-disable command; the
controller state is unchanged. -/
def off (c : SteeringController) : SteeringController × WireCmd :=
  (c, WireCmd.disable)

/-- Modelled from the spec: `emergency` sends the stop command
unconditionally; the controller state is unchanged. -/
def emergency (c : SteeringController) : SteeringController × WireCmd :=
  (c, WireCmd.stop)

/-- Modelled from the spec: `release_emergency` sends the stop-release
command; the controller state is unchanged. -/
def release_emergency (c : SteeringController) : SteeringController × WireCmd :=
  (c, WireCmd.stopRelease)

/-- The `set` overload as a state-passing operation: it reads the controller
but returns it unchanged together with the issued command or error. -/
def setOp (c : SteeringController) (st : ConnState) (ang ang_vel ang_acc : ℚ) :
    SteeringController × Except CtrlError MoveCmd :=
  (c, set c st ang ang_vel ang_acc)

/-- `get_pulse_count` as a state-passing operation. -/
def get_pulse_countOp (c : SteeringController) (st : ConnState)
    (parse : String → Option pulse_t) (trace : List (ℕ × String)) :
    SteeringController × Except CtrlError pulse_t :=
  (c, get_pulse_count c st parse trace)

/-- `get_rad` as a state-passing operation. -/
def get_radOp (c : SteeringController) (st : ConnState)
    (parse : String → Option pulse_t) (trace : List (ℕ × String)) :
    SteeringController × Except CtrlError ℚ :=
  (c, get_rad c st parse trace)

/-- The construction-time configuration of a controller: the two limit pairs
and the origin offset. -/
def limitsOf (c : SteeringController) : (ℚ × pulse_t) × (ℚ × pulse_t) × pulse_t :=
  (c.limit_plus_ccw, c.limit_minus_cw, c.origin_offset)

/-- Concrete controller configuration used by the witness theorems. -/
def cW : SteeringController :=
  ⟨⟨"/dev/ttyUSB0", 38400, false⟩, (1, 4), (-1, -4), 7⟩

/-- Scan function used by witness theorems: matches the line "Pos=42". -/
def parse4 (s : String) : Option pulse_t :=
  if s = "Pos=42" then some 42 else none

/-- Scan function used by witness theorems: never matches. -/
def parseNone (_ : String) : Option pulse_t :=
  none

lemma pulse2rad_ccw (c : SteeringController) (k : ℤ) (hk : 0 ≤ k) :
    pulse2rad c (k + c.origin_offset) =
      (k : ℚ) / (c.limit_plus_ccw.2 : ℚ) * c.limit_plus_ccw.1 := by
  have h : k + c.origin_offset - c.origin_offset = k := by ring
  simp only [pulse2rad, h]
  rw [if_pos hk]

lemma pulse2rad_cw (c : SteeringController) (k : ℤ) (hk : k ≤ 0) :
    pulse2rad c (k + c.origin_offset) =
      (k : ℚ) / (c.limit_minus_cw.2 : ℚ) * c.limit_minus_cw.1 := by
  have h : k + c.origin_offset - c.origin_offset = k := by ring
  simp only [pulse2rad, h]
  rcases eq_or_lt_of_le hk with h0 | h0
  · subst h0
    simp
  · have hneg : ¬ (0 ≤ k) := by omega
    rw [if_neg hneg]

lemma round_nonneg_of_nonneg {x : ℚ} (hx : 0 ≤ x) : 0 ≤ round x := by
  rw [round_eq]
  exact Int.floor_nonneg.mpr (by linarith)

lemma round_nonpos_of_nonpos {x : ℚ} (hx : x ≤ 0) : round x ≤ 0 := by
  rw [round_eq]
  have h : ⌊x + 1 / 2⌋ ≤ ⌊(1 : ℚ) / 2⌋ := Int.floor_mono (by linarith)
  have h2 : ⌊(1 : ℚ) / 2⌋ = 0 := by
    rw [Int.floor_eq_zero_iff]
    constructor <;> norm_num
  omega

/-- C2: the conversion functions compute the spec's linear maps:
`pulse2rad` selects the CCW or CW limit pair by the sign of
`pulse - origin_offset` and returns `(pulse - origin_offset) / pulse_limit
* angle_limit`; `rad2pulse` selects the pair by the sign of `rad`, scales,
adds the origin offset and rounds to the nearest integer; in particular
`rad2pulse 0 = origin_offset` for every limit configuration. -/
theorem conversion_linear_maps :
    (∀ (c : SteeringController) (p : pulse_t), c.origin_offset ≤ p →
      pulse2rad c p =
        ((p - c.origin_offset : ℤ) : ℚ) / (c.limit_plus_ccw.2 : ℚ) * c.limit_plus_ccw.1) ∧
    (∀ (c : SteeringController) (p : pulse_t), p < c.origin_offset →
      pulse2rad c p =
        ((p - c.origin_offset : ℤ) : ℚ) / (c.limit_minus_cw.2 : ℚ) * c.limit_minus_cw.1) ∧
    (∀ (c : SteeringController) (r : ℚ), 0 ≤ r →
      rad2pulse c r =
        round (r / c.limit_plus_ccw.1 * (c.limit_plus_ccw.2 : ℚ) + (c.origin_offset : ℚ))) ∧
    (∀ (c : SteeringController) (r : ℚ), r < 0 →
      rad2pulse c r =
        round (r / c.limit_minus_cw.1 * (c.limit_minus_cw.2 : ℚ) + (c.origin_offset : ℚ))) ∧
    (∀ c : SteeringController, rad2pulse c 0 = c.origin_offset) := by
  refine ⟨?_, ?_, ?_, ?_, ?_⟩
  · intro c p hp
    simp only [pulse2rad]
    have hpos : 0 ≤ p - c.origin_offset := sub_nonneg.mpr hp
    rw [if_pos hpos]
  · intro c p hp
    simp only [pulse2rad]
    have hneg : ¬ (0 ≤ p - c.origin_offset) := not_le.mpr (sub_neg.mpr hp)
    rw [if_neg hneg]
  · intro c r hr
    simp only [rad2pulse]
    rw [if_pos hr]
  · intro c r hr
    simp only [rad2pulse]
    rw [if_neg (by linarith)]
  · intro c
    simp only [rad2pulse]
    rw [if_pos le_rfl]
    simp

/-- C2 witness: the linear-map equations instantiated at a concrete
controller with origin offset 7, at pulses 9 and 5 and angles 2 and -2. -/
theorem conversion_linear_maps_witness :
    pulse2rad cW 9 =
      ((9 - cW.origin_offset : ℤ) : ℚ) / (cW.limit_plus_ccw.2 : ℚ) * cW.limit_plus_ccw.1 ∧
    pulse2rad cW 5 =
      ((5 - cW.origin_offset : ℤ) : ℚ) / (cW.limit_minus_cw.2 : ℚ) * cW.limit_minus_cw.1 ∧
    rad2pulse cW 2 =
      round ((2 : ℚ) / cW.limit_plus_ccw.1 * (cW.limit_plus_ccw.2 : ℚ) + (cW.origin_offset : ℚ)) ∧
    rad2pulse cW (-2) =
      round ((-2 : ℚ) / cW.limit_minus_cw.1 * (cW.limit_minus_cw.2 : ℚ) + (cW.origin_offset : ℚ)) ∧
    rad2pulse cW 0 = cW.origin_offset :=
  ⟨conversion_linear_maps.1 cW 9 (by decide),
   conversion_linear_maps.2.1 cW 5 (by decide),
   conversion_linear_maps.2.2.1 cW 2 (by norm_num),
   conversion_linear_maps.2.2.2.1 cW (-2) (by norm_num),
   conversion_linear_maps.2.2.2.2 cW⟩

lemma round_scale_err (A P r : ℚ) (hA : A ≠ 0) (hP : P ≠ 0) (hpos : 0 < A / P) :
    |((round (r / A * P) : ℤ) : ℚ) / P * A - r| ≤ A / P := by
  have key : ((round (r / A * P) : ℤ) : ℚ) / P * A - r
      = A / P * (((round (r / A * P) : ℤ) : ℚ) - r / A * P) := by
    field_simp
    ring
  rw [key, abs_mul, abs_of_pos hpos]
  have habs : |((round (r / A * P) : ℤ) : ℚ) - r / A * P| ≤ 1 / 2 := by
    rw [abs_sub_comm]
    exact abs_sub_round _
  calc A / P * |((round (r / A * P) : ℤ) : ℚ) - r / A * P|
      ≤ A / P * (1 / 2) := mul_le_mul_of_nonneg_left habs hpos.le
    _ ≤ A / P := by linarith

lemma roundtrip_rad_aux (c : SteeringController)
    (hAc : 0 < c.limit_plus_ccw.1) (hPc : 0 < c.limit_plus_ccw.2)
    (hAw : c.limit_minus_cw.1 < 0) (hPw : c.limit_minus_cw.2 < 0)
    (r : ℚ) :
    |pulse2rad c (rad2pulse c r) - r| ≤
      max (c.limit_plus_ccw.1 / (c.limit_plus_ccw.2 : ℚ))
        (c.limit_minus_cw.1 / (c.limit_minus_cw.2 : ℚ)) := by
  have hPcQ : (0 : ℚ) < (c.limit_plus_ccw.2 : ℚ) := by exact_mod_cast hPc
  have hPwQ : ((c.limit_minus_cw.2 : ℚ)) < 0 := by exact_mod_cast hPw
  rcases le_or_lt 0 r with hr | hr
  · have hstep : rad2pulse c r =
        round (r / c.limit_plus_ccw.1 * (c.limit_plus_ccw.2 : ℚ)) + c.origin_offset := by
      simp only [rad2pulse]
      rw [if_pos hr, round_add_int]
    have hk : 0 ≤ round (r / c.limit_plus_ccw.1 * (c.limit_plus_ccw.2 : ℚ)) :=
      round_nonneg_of_nonneg (mul_nonneg (div_nonneg hr hAc.le) hPcQ.le)
    rw [hstep, pulse2rad_ccw c _ hk]
    exact le_trans
      (round_scale_err c.limit_plus_ccw.1 (c.limit_plus_ccw.2 : ℚ) r
        (ne_of_gt hAc) (ne_of_gt hPcQ) (div_pos hAc hPcQ))
      (le_max_left _ _)
  · have hstep : rad2pulse c r =
        round (r / c.limit_minus_cw.1 * (c.limit_minus_cw.2 : ℚ)) + c.origin_offset := by
      simp only [rad2pulse]
      rw [if_neg (not_le.mpr hr), round_add_int]
    have hx : r / c.limit_minus_cw.1 * (c.limit_minus_cw.2 : ℚ) ≤ 0 :=
      mul_nonpos_iff.mpr (Or.inl ⟨div_nonneg_iff.mpr (Or.inr ⟨hr.le, hAw.le⟩), hPwQ.le⟩)
    have hk : round (r / c.limit_minus_cw.1 * (c.limit_minus_cw.2 : ℚ)) ≤ 0 :=
      round_nonpos_of_nonpos hx
    rw [hstep, pulse2rad_cw c _ hk]
    exact le_trans
      (round_scale_err c.limit_minus_cw.1 (c.limit_minus_cw.2 : ℚ) r
        (ne_of_lt hAw) (ne_of_lt hPwQ) (div_pos_iff.mpr (Or.inr ⟨hAw, hPwQ⟩)))
      (le_max_right _ _)

lemma roundtrip_pulse_aux (c : SteeringController)
    (hAc : 0 < c.limit_plus_ccw.1) (hPc : 0 < c.limit_plus_ccw.2)
    (hAw : c.limit_minus_cw.1 < 0) (hPw : c.limit_minus_cw.2 < 0)
    (p : pulse_t) :
    rad2pulse c (pulse2rad c p) = p := by
  have hPcQ : (0 : ℚ) < (c.limit_plus_ccw.2 : ℚ) := by exact_mod_cast hPc
  have hPwQ : ((c.limit_minus_cw.2 : ℚ)) < 0 := by exact_mod_cast hPw
  have hp : p = (p - c.origin_offset) + c.origin_offset := by ring
  rcases le_or_lt 0 (p - c.origin_offset) with hk | hk
  · rw [hp, pulse2rad_ccw c _ hk]
    have hkQ : (0 : ℚ) ≤ ((p - c.origin_offset : ℤ) : ℚ) := by exact_mod_cast hk
    have hr0 : 0 ≤ ((p - c.origin_offset : ℤ) : ℚ) / (c.limit_plus_ccw.2 : ℚ) * c.limit_plus_ccw.1 :=
      mul_nonneg (div_nonneg hkQ hPcQ.le) hAc.le
    simp only [rad2pulse]
    rw [if_pos hr0]
    have hsimp : ((p - c.origin_offset : ℤ) : ℚ) / (c.limit_plus_ccw.2 : ℚ) * c.limit_plus_ccw.1
        / c.limit_plus_ccw.1 * (c.limit_plus_ccw.2 : ℚ) = ((p - c.origin_offset : ℤ) : ℚ) := by
      have hAcne : c.limit_plus_ccw.1 ≠ 0 := ne_of_gt hAc
      have hPcne : (c.limit_plus_ccw.2 : ℚ) ≠ 0 := ne_of_gt hPcQ
      field_simp
      ring
    rw [hsimp]
    have hcast : ((p - c.origin_offset : ℤ) : ℚ) + (c.origin_offset : ℚ)
        = (((p - c.origin_offset) + c.origin_offset : ℤ) : ℚ) := by
      push_cast
      ring
    rw [hcast, round_intCast]
  · rw [hp, pulse2rad_cw c _ hk.le]
    have hkQ : ((p - c.origin_offset : ℤ) : ℚ) < 0 := by exact_mod_cast hk
    have hr0 : ((p - c.origin_offset : ℤ) : ℚ) / (c.limit_minus_cw.2 : ℚ) * c.limit_minus_cw.1 < 0 :=
      mul_neg_of_pos_of_neg (div_pos_iff.mpr (Or.inr ⟨hkQ, hPwQ⟩)) hAw
    simp only [rad2pulse]
    rw [if_neg (not_le.mpr hr0)]
    have hsimp : ((p - c.origin_offset : ℤ) : ℚ) / (c.limit_minus_cw.2 : ℚ) * c.limit_minus_cw.1
        / c.limit_minus_cw.1 * (c.limit_minus_cw.2 : ℚ) = ((p - c.origin_offset : ℤ) : ℚ) := by
      have hAwne : c.limit_minus_cw.1 ≠ 0 := ne_of_lt hAw
      have hPwne : (c.limit_minus_cw.2 : ℚ) ≠ 0 := ne_of_lt hPwQ
      field_simp
      ring
    rw [hsimp]
    have hcast : ((p - c.origin_offset : ℤ) : ℚ) + (c.origin_offset : ℚ)
        = (((p - c.origin_offset) + c.origin_offset : ℤ) : ℚ) := by
      push_cast
      ring
    rw [hcast, round_intCast]

/-- C1: round-trip of the unit converter, for limit pairs with positive CCW
angle and pulse bounds and negative CW bounds: every angle within
`[angle_cw_max, angle_ccw_max]` survives `rad2pulse` followed by
`pulse2rad` within one pulse's angular resolution (the coarser of the two
sides), and every pulse count within the pulse limits survives `pulse2rad`
followed by `rad2pulse` within ±1 pulse. -/
theorem unit_converter_roundtrip (c : SteeringController)
    (hAc : 0 < c.limit_plus_ccw.1) (hPc : 0 < c.limit_plus_ccw.2)
    (hAw : c.limit_minus_cw.1 < 0) (hPw : c.limit_minus_cw.2 < 0) :
    (∀ r : ℚ, c.limit_minus_cw.1 ≤ r → r ≤ c.limit_plus_ccw.1 →
      |pulse2rad c (rad2pulse c r) - r| ≤
        max (c.limit_plus_ccw.1 / (c.limit_plus_ccw.2 : ℚ))
          (c.limit_minus_cw.1 / (c.limit_minus_cw.2 : ℚ))) ∧
    (∀ p : pulse_t, c.origin_offset + c.limit_minus_cw.2 ≤ p →
      p ≤ c.origin_offset + c.limit_plus_ccw.2 →
      |rad2pulse c (pulse2rad c p) - p| ≤ 1) := by
  constructor
  · intro r _ _
    exact roundtrip_rad_aux c hAc hPc hAw hPw r
  · intro p _ _
    rw [roundtrip_pulse_aux c hAc hPc hAw hPw p]
    simp

/-- C1 witness: the round-trip theorem instantiated at the concrete
controller `cW`, angle 1/3 and pulse count 9. -/
theorem unit_converter_roundtrip_witness :
    |pulse2rad cW (rad2pulse cW (1 / 3)) - 1 / 3| ≤
      max (cW.limit_plus_ccw.1 / (cW.limit_plus_ccw.2 : ℚ))
        (cW.limit_minus_cw.1 / (cW.limit_minus_cw.2 : ℚ)) ∧
    |rad2pulse cW (pulse2rad cW 9) - 9| ≤ 1 :=
  ⟨(unit_converter_roundtrip cW (by norm_num [cW]) (by norm_num [cW])
      (by norm_num [cW]) (by norm_num [cW])).1 (1 / 3)
      (by norm_num [cW]) (by norm_num [cW]),
   (unit_converter_roundtrip cW (by norm_num [cW]) (by norm_num [cW])
      (by norm_num [cW]) (by norm_num [cW])).2 9
      (by norm_num [cW]) (by norm_num [cW])⟩

lemma setCmd_out_of_range (c : SteeringController) (ang : ℚ) (speed acc : ℤ)
    (h : c.limit_plus_ccw.1 < ang ∨ ang < c.limit_minus_cw.1) :
    setCmd c ConnState.Enabled ang speed acc = Except.error CtrlError.LimitExceededError := by
  simp only [setCmd]
  rw [if_pos trivial, if_pos h]

lemma setCmd_in_range (c : SteeringController) (ang : ℚ) (speed acc : ℤ)
    (h : ¬ (c.limit_plus_ccw.1 < ang ∨ ang < c.limit_minus_cw.1)) :
    setCmd c ConnState.Enabled ang speed acc =
      Except.ok ⟨rad2pulse c ang, speed, acc, DEFAULT_M⟩ := by
  simp only [setCmd]
  rw [if_pos trivial, if_neg h]

lemma setCmd_not_enabled (c : SteeringController) (st : ConnState) (ang : ℚ)
    (speed acc : ℤ) (hst : st ≠ ConnState.Enabled) :
    setCmd c st ang speed acc = Except.error CtrlError.PreconditionError := by
  simp only [setCmd]
  rw [if_neg hst]

/-- C3: for every angle strictly outside `[angle_cw_max, angle_ccw_max]`,
all three `set` overloads fail with `LimitExceededError` and issue no move
command, so the actuator's last successfully issued motion command stays in
effect. -/
theorem set_out_of_range_rejected (c : SteeringController) (ang : ℚ)
    (h : c.limit_plus_ccw.1 < ang ∨ ang < c.limit_minus_cw.1) :
    ∀ (ang_vel ang_acc : ℚ) (last : Option MoveCmd),
      set c ConnState.Enabled ang ang_vel ang_acc = Except.error CtrlError.LimitExceededError ∧
      set2 c ConnState.Enabled ang ang_vel = Except.error CtrlError.LimitExceededError ∧
      set1 c ConnState.Enabled ang = Except.error CtrlError.LimitExceededError ∧
      lastCmdAfter last (set c ConnState.Enabled ang ang_vel ang_acc) = last ∧
      lastCmdAfter last (set2 c ConnState.Enabled ang ang_vel) = last ∧
      lastCmdAfter last (set1 c ConnState.Enabled ang) = last := by
  intro ang_vel ang_acc last
  have h3 : set c ConnState.Enabled ang ang_vel ang_acc =
      Except.error CtrlError.LimitExceededError := setCmd_out_of_range c ang _ _ h
  have h2 : set2 c ConnState.Enabled ang ang_vel =
      Except.error CtrlError.LimitExceededError := setCmd_out_of_range c ang _ _ h
  have h1 : set1 c ConnState.Enabled ang =
      Except.error CtrlError.LimitExceededError := setCmd_out_of_range c ang _ _ h
  refine ⟨h3, h2, h1, ?_, ?_, ?_⟩ <;>
    simp [h3, h2, h1, lastCmdAfter]

/-- C3 witness: at the concrete controller `cW` (CCW angle limit 1), the
angle 2 is rejected by all overloads and the last command `none` is kept. -/
theorem set_out_of_range_rejected_witness :
    set cW ConnState.Enabled 2 1 1 = Except.error CtrlError.LimitExceededError ∧
    set2 cW ConnState.Enabled 2 1 = Except.error CtrlError.LimitExceededError ∧
    set1 cW ConnState.Enabled 2 = Except.error CtrlError.LimitExceededError ∧
    lastCmdAfter none (set cW ConnState.Enabled 2 1 1) = none ∧
    lastCmdAfter none (set2 cW ConnState.Enabled 2 1) = none ∧
    lastCmdAfter none (set1 cW ConnState.Enabled 2) = none :=
  set_out_of_range_rejected cW 2 (by norm_num [cW]) 1 1 none

/-- C6: the `set` overloads that omit the angular velocity and/or
acceleration issue the move command with the fixed defaults speed 40,
acceleration 50 and torque 20; and for any configuration with CCW limits
(a, 1000), CW limits (-a, -1000) and origin offset 0 — the spec's example
has a = π/2 — `set` of the half-limit angle a/2 issues target pulse 500
with speed 40 and acceleration 50. -/
theorem set_default_parameters :
    (∀ (c : SteeringController) (ang : ℚ),
      ¬ (c.limit_plus_ccw.1 < ang ∨ ang < c.limit_minus_cw.1) →
      set1 c ConnState.Enabled ang = Except.ok ⟨rad2pulse c ang, 40, 50, 20⟩) ∧
    (∀ (c : SteeringController) (ang ang_vel : ℚ),
      ¬ (c.limit_plus_ccw.1 < ang ∨ ang < c.limit_minus_cw.1) →
      set2 c ConnState.Enabled ang ang_vel =
        Except.ok ⟨rad2pulse c ang, angvel2pulse c ang_vel, 50, 20⟩) ∧
    (∀ (a : ℚ), 0 < a → ∀ h : SerialHandle,
      set1 ⟨h, (a, 1000), (-a, -1000), 0⟩ ConnState.Enabled (a / 2) =
        Except.ok ⟨500, 40, 50, 20⟩) := by
  refine ⟨?_, ?_, ?_⟩
  · intro c ang hin
    exact setCmd_in_range c ang _ _ hin
  · intro c ang ang_vel hin
    exact setCmd_in_range c ang _ _ hin
  · intro a ha h
    have hin : ¬ ((a : ℚ) < a / 2 ∨ (a / 2 : ℚ) < -a) := by
      push_neg
      constructor <;> linarith
    have hstep := setCmd_in_range ⟨h, (a, 1000), (-a, -1000), 0⟩ (a / 2) DEFAULT_S DEFAULT_A hin
    rw [set1, hstep]
    have hpulse : rad2pulse ⟨h, (a, 1000), (-a, -1000), 0⟩ (a / 2) = 500 := by
      simp only [rad2pulse]
      rw [if_pos (by linarith : (0 : ℚ) ≤ a / 2)]
      have hane : a ≠ 0 := ne_of_gt ha
      have hval : a / 2 / a * ((1000 : ℤ) : ℚ) + ((0 : ℤ) : ℚ) = ((500 : ℤ) : ℚ) := by
        field_simp
        ring
      rw [hval, round_intCast]
    rw [hpulse]
    rfl

/-- C6 witness: the default-substitution equations at the concrete
controller `cW` and the spec's example shape instantiated at a = 1. -/
theorem set_default_parameters_witness :
    set1 cW ConnState.Enabled (1 / 2) = Except.ok ⟨rad2pulse cW (1 / 2), 40, 50, 20⟩ ∧
    set2 cW ConnState.Enabled (1 / 2) 1 =
      Except.ok ⟨rad2pulse cW (1 / 2), angvel2pulse cW 1, 50, 20⟩ ∧
    set1 ⟨⟨"port0", 9600, false⟩, (1, 1000), (-1, -1000), 0⟩ ConnState.Enabled (1 / 2) =
      Except.ok ⟨500, 40, 50, 20⟩ :=
  ⟨set_default_parameters.1 cW (1 / 2) (by norm_num [cW]),
   set_default_parameters.2.1 cW (1 / 2) 1 (by norm_num [cW]),
   set_default_parameters.2.2 1 (by norm_num) ⟨"port0", 9600, false⟩⟩

/-- C7: issuing a motion or read command (`set` in all three overloads,
`get_pulse_count`, `get_rad`) while the controller is not in the Enabled
state fails fast with `PreconditionError`, issues nothing, and leaves the
last issued motion command in effect rather than queueing the new one. -/
theorem not_enabled_fails_fast (st : ConnState) (hst : st ≠ ConnState.Enabled) :
    ∀ (c : SteeringController) (ang ang_vel ang_acc : ℚ)
      (parse : String → Option pulse_t) (trace : List (ℕ × String))
      (last : Option MoveCmd),
      set c st ang ang_vel ang_acc = Except.error CtrlError.PreconditionError ∧
      set2 c st ang ang_vel = Except.error CtrlError.PreconditionError ∧
      set1 c st ang = Except.error CtrlError.PreconditionError ∧
      get_pulse_count c st parse trace = Except.error CtrlError.PreconditionError ∧
      get_rad c st parse trace = Except.error CtrlError.PreconditionError ∧
      lastCmdAfter last (set c st ang ang_vel ang_acc) = last := by
  intro c ang ang_vel ang_acc parse trace last
  have h3 : set c st ang ang_vel ang_acc = Except.error CtrlError.PreconditionError :=
    setCmd_not_enabled c st ang _ _ hst
  have hq : get_pulse_count c st parse trace = Except.error CtrlError.PreconditionError := by
    simp only [get_pulse_count]
    rw [if_neg hst]
  refine ⟨h3, setCmd_not_enabled c st ang _ _ hst, setCmd_not_enabled c st ang _ _ hst,
    hq, ?_, ?_⟩
  · simp only [get_rad, hq, Except.map]
  · simp [h3, lastCmdAfter]

/-- C7 witness: in the Disabled state, all motion and read commands on the
concrete controller `cW` fail with `PreconditionError`. -/
theorem not_enabled_fails_fast_witness :
    set cW ConnState.Disabled 0 1 1 = Except.error CtrlError.PreconditionError ∧
    set2 cW ConnState.Disabled 0 1 = Except.error CtrlError.PreconditionError ∧
    set1 cW ConnState.Disabled 0 = Except.error CtrlError.PreconditionError ∧
    get_pulse_count cW ConnState.Disabled parseNone [] = Except.error CtrlError.PreconditionError ∧
    get_rad cW ConnState.Disabled parseNone [] = Except.error CtrlError.PreconditionError ∧
    lastCmdAfter none (set cW ConnState.Disabled 0 1 1) = none :=
  not_enabled_fails_fast ConnState.Disabled (by decide) cW 0 1 1 parseNone [] none

lemma readline_cons_no_match {T : Type} (parse : String → Option T)
    (d : ℕ) (l : String) (rest : List (ℕ × String))
    (hd : d ≤ READ_WRITE_TIMEOUT_MS) (hl : parse l = none) :
    readline parse ((d, l) :: rest) =
      ((readline parse rest).1, d + (readline parse rest).2) := by
  simp only [readline]
  rw [if_neg (not_lt.mpr hd), hl]

lemma readline_cons_match {T : Type} (parse : String → Option T)
    (d : ℕ) (l : String) (rest : List (ℕ × String)) (v : T)
    (hd : d ≤ READ_WRITE_TIMEOUT_MS) (hl : parse l = some v) :
    readline parse ((d, l) :: rest) = (Except.ok v, d) := by
  simp only [readline]
  rw [if_neg (not_lt.mpr hd), hl]

/-- C4: `readline` discards every incoming line the scan function does not
match and keeps reading, and it returns the value parsed from the first
matching line; in particular, on a transport emitting three non-matching
lines followed by a matching one, it returns the value of the fourth line. -/
theorem readline_first_match :
    (∀ (T : Type) (parse : String → Option T) (d : ℕ) (l : String)
      (rest : List (ℕ × String)),
      d ≤ READ_WRITE_TIMEOUT_MS → parse l = none →
      (readline parse ((d, l) :: rest)).1 = (readline parse rest).1) ∧
    (∀ (T : Type) (parse : String → Option T) (d : ℕ) (l : String)
      (rest : List (ℕ × String)) (v : T),
      d ≤ READ_WRITE_TIMEOUT_MS → parse l = some v →
      (readline parse ((d, l) :: rest)).1 = Except.ok v) ∧
    (∀ (T : Type) (parse : String → Option T) (d1 d2 d3 d4 : ℕ)
      (l1 l2 l3 l4 : String) (rest : List (ℕ × String)) (v : T),
      d1 ≤ READ_WRITE_TIMEOUT_MS → d2 ≤ READ_WRITE_TIMEOUT_MS →
      d3 ≤ READ_WRITE_TIMEOUT_MS → d4 ≤ READ_WRITE_TIMEOUT_MS →
      parse l1 = none → parse l2 = none → parse l3 = none → parse l4 = some v →
      (readline parse ((d1, l1) :: (d2, l2) :: (d3, l3) :: (d4, l4) :: rest)).1 =
        Except.ok v) := by
  refine ⟨?_, ?_, ?_⟩
  · intro T parse d l rest hd hl
    rw [readline_cons_no_match parse d l rest hd hl]
  · intro T parse d l rest v hd hl
    rw [readline_cons_match parse d l rest v hd hl]
  · intro T parse d1 d2 d3 d4 l1 l2 l3 l4 rest v h1 h2 h3 h4 hl1 hl2 hl3 hl4
    rw [readline_cons_no_match parse d1 l1 _ h1 hl1]
    simp only
    rw [readline_cons_no_match parse d2 l2 _ h2 hl2]
    simp only
    rw [readline_cons_no_match parse d3 l3 _ h3 hl3]
    simp only
    rw [readline_cons_match parse d4 l4 rest v h4 hl4]

/-- C4 witness: with a scanner matching only "Pos=42", a trace of three
non-matching lines then "Pos=42" yields the parsed value 42, the three
leading lines being discarded. -/
theorem readline_first_match_witness :
    (readline parse4 [(10, "echo"), (20, "status"), (0, "noise"), (250, "Pos=42")]).1 =
      Except.ok 42 :=
  readline_first_match.2.2 pulse_t parse4 10 20 0 250 "echo" "status" "noise" "Pos=42" []
    42 (by decide) (by decide) (by decide) (by decide)
    (by decide) (by decide) (by decide) (by decide)

/-- C5: on a transport that never emits a matching line, `readline`
terminates and fails with `ProtocolTimeoutError`; the elapsed time is at
least the 250 ms per-attempt read/write timeout (the failing attempt waits
it out in full — not earlier) and at most the time the transport spent
delivering the non-matching lines plus that timeout (not indefinitely). -/
theorem readline_timeout (T : Type) (parse : String → Option T)
    (trace : List (ℕ × String)) (h : ∀ p ∈ trace, parse p.2 = none) :
    (readline parse trace).1 = Except.error CtrlError.ProtocolTimeoutError ∧
    READ_WRITE_TIMEOUT_MS ≤ (readline parse trace).2 ∧
    (readline parse trace).2 ≤ (trace.map Prod.fst).sum + READ_WRITE_TIMEOUT_MS := by
  induction trace with
  | nil =>
    refine ⟨rfl, le_rfl, ?_⟩
    simp [readline]
  | cons q rest ih =>
    obtain ⟨d, l⟩ := q
    have hl : parse l = none := h (d, l) (List.mem_cons_self _ _)
    have hrest : ∀ p ∈ rest, parse p.2 = none := fun p hp => h p (List.mem_cons_of_mem _ hp)
    obtain ⟨ih1, ih2, ih3⟩ := ih hrest
    by_cases hd : READ_WRITE_TIMEOUT_MS < d
    · have hthis : readline parse ((d, l) :: rest) =
          (Except.error CtrlError.ProtocolTimeoutError, READ_WRITE_TIMEOUT_MS) := by
        simp only [readline]
        rw [if_pos hd]
      rw [hthis]
      refine ⟨rfl, le_rfl, ?_⟩
      simp only [List.map_cons, List.sum_cons]
      omega
    · rw [readline_cons_no_match parse d l rest (not_lt.mp hd) hl]
      refine ⟨ih1, le_trans ih2 (Nat.le_add_left _ _), ?_⟩
      simp only [List.map_cons, List.sum_cons]
      omega

/-- C5 witness: a never-matching scanner over a two-line trace (the second
line arriving after the per-attempt timeout) yields the timeout error, with
the elapsed time between 250 ms and the trace total plus 250 ms. -/
theorem readline_timeout_witness :
    (readline parseNone [(10, "echo"), (300, "noise")]).1 =
      Except.error CtrlError.ProtocolTimeoutError ∧
    READ_WRITE_TIMEOUT_MS ≤ (readline parseNone [(10, "echo"), (300, "noise")]).2 ∧
    (readline parseNone [(10, "echo"), (300, "noise")]).2 ≤
      ([(10, "echo"), (300, "noise")].map Prod.fst).sum + READ_WRITE_TIMEOUT_MS :=
  readline_timeout pulse_t parseNone [(10, "echo"), (300, "noise")] (fun _ _ => rfl)

/-- C8: the base `writeline` hands the transport exactly the bytes of its
argument followed by the CRLF terminator, and the templated overload
`writeline2` delegates to the base `writeline` on the prefix concatenated
with the decimal text of the value, inserting no separator, so its bytes
are prefix ++ decimal value ++ CRLF. -/
theorem writeline_exact_bytes :
    (∀ text : String, writeline text = text ++ "\r\n") ∧
    (∀ (line : String) (val : pulse_t),
      writeline2 line val = writeline (line ++ toString val)) ∧
    (∀ (line : String) (val : pulse_t),
      writeline2 line val = line ++ toString val ++ "\r\n") :=
  ⟨fun _ => rfl, fun _ _ => rfl, fun _ _ => rfl⟩

/-- C9: the CCW limit pair, the CW limit pair and the origin offset are
fixed at construction: every public operation — connect, init, on, off, the
set overloads, emergency, release_emergency, get_pulse_count, get_rad,
set_port and set_baudrate — leaves all three unchanged in the state it
yields. -/
theorem limits_immutable :
    (∀ (avail : Bool) (c c2 : SteeringController),
      connect avail c = Except.ok c2 → limitsOf c2 = limitsOf c) ∧
    (∀ (ack : Bool) (c c2 : SteeringController),
      init ack c = Except.ok c2 → limitsOf c2 = limitsOf c) ∧
    (∀ c : SteeringController, limitsOf («on» c).1 = limitsOf c) ∧
    (∀ c : SteeringController, limitsOf (off c).1 = limitsOf c) ∧
    (∀ (c : SteeringController) (st : ConnState) (ang ang_vel ang_acc : ℚ),
      limitsOf (setOp c st ang ang_vel ang_acc).1 = limitsOf c) ∧
    (∀ c : SteeringController, limitsOf (emergency c).1 = limitsOf c) ∧
    (∀ c : SteeringController, limitsOf (release_emergency c).1 = limitsOf c) ∧
    (∀ (c : SteeringController) (st : ConnState) (parse : String → Option pulse_t)
      (trace : List (ℕ × String)),
      limitsOf (get_pulse_countOp c st parse trace).1 = limitsOf c) ∧
    (∀ (c : SteeringController) (st : ConnState) (parse : String → Option pulse_t)
      (trace : List (ℕ × String)),
      limitsOf (get_radOp c st parse trace).1 = limitsOf c) ∧
    (∀ (c : SteeringController) (port : String),
      limitsOf (set_port c port) = limitsOf c) ∧
    (∀ (c : SteeringController) (baudrate : ℕ),
      limitsOf (set_baudrate c baudrate) = limitsOf c) := by
  refine ⟨?_, ?_, fun _ => rfl, fun _ => rfl, fun _ _ _ _ _ => rfl, fun _ => rfl,
    fun _ => rfl, fun _ _ _ _ => rfl, fun _ _ _ _ => rfl, fun _ _ => rfl, fun _ _ => rfl⟩
  · intro avail c c2 h
    cases avail with
    | false => exact absurd h (by simp [connect])
    | true =>
      simp only [connect, if_pos] at h
      cases h
      rfl
  · intro ack c c2 h
    cases ack with
    | false => exact absurd h (by simp [init])
    | true =>
      simp only [init, if_pos] at h
      cases h
      rfl

/-- C9 witness: the frame equations instantiated at the concrete controller
`cW`, discharging the success hypotheses of connect and init. -/
theorem limits_immutable_witness :
    limitsOf { cW with to_cool_muscle := { cW.to_cool_muscle with isOpen := true } } =
      limitsOf cW ∧
    limitsOf cW = limitsOf cW ∧
    limitsOf («on» cW).1 = limitsOf cW ∧
    limitsOf (setOp cW ConnState.Enabled 0 1 1).1 = limitsOf cW ∧
    limitsOf (set_port cW "port1") = limitsOf cW ∧
    limitsOf (set_baudrate cW 19200) = limitsOf cW :=
  ⟨limits_immutable.1 true cW _ rfl,
   limits_immutable.2.1 true cW cW rfl,
   limits_immutable.2.2.1 cW,
   limits_immutable.2.2.2.2.1 cW ConnState.Enabled 0 1 1,
   limits_immutable.2.2.2.2.2.2.2.2.2.1 cW "port1",
   limits_immutable.2.2.2.2.2.2.2.2.2.2 cW 19200⟩

/-- C10: the controller's entire state is the serial transport handle, the
two limit pairs and the origin offset — exactly the four private members of
the header's class.  Any function of the controller state, hence any
operation's behaviour, is already determined by these four fields: there is
no further Connection/Power field for an operation to branch on. -/
theorem state_determined_by_four_fields {α : Type} (f : SteeringController → α)
    (s t : SteeringController)
    (h1 : s.to_cool_muscle = t.to_cool_muscle)
    (h2 : s.limit_plus_ccw = t.limit_plus_ccw)
    (h3 : s.limit_minus_cw = t.limit_minus_cw)
    (h4 : s.origin_offset = t.origin_offset) :
    f s = f t := by
  cases s
  cases t
  cases h1
  cases h2
  cases h3
  cases h4
  rfl

/-- C10 witness: the determinacy theorem applied at a concrete observation
function and two controller values agreeing on all four fields. -/
theorem state_determined_by_four_fields_witness :
    pulse2rad { to_cool_muscle := ⟨"/dev/ttyUSB0", 38400, false⟩,
                limit_plus_ccw := (1, 4), limit_minus_cw := (-1, -4),
                origin_offset := 7 } 9 = pulse2rad cW 9 :=
  state_determined_by_four_fields (fun c => pulse2rad c 9)
    { to_cool_muscle := ⟨"/dev/ttyUSB0", 38400, false⟩,
      limit_plus_ccw := (1, 4), limit_minus_cw := (-1, -4), origin_offset := 7 }
    cW rfl rfl rfl rfl

end ComsSteering
